import Mathlib

/-!
Shallow embedding of the command-execution engine of `app.py`
(a Python web terminal): the internal-command dispatcher
`run_internal_command`, the external-process streamer
`stream_subprocess`, and the submit handler of the execution
controller (`run_handler`).  Filesystem and process interaction is
modelled by oracle structures (`FS`, `Metrics`, a tokenizer and a
process-outcome oracle); every call the Python code makes to the
operating system is answered by the oracle, and mutating calls are
additionally recorded in an effect trace.
-/

namespace Terminal

/-- Python `line.rstrip("\n")`: drop every trailing newline character. -/
def rstripNewlines (s : String) : String :=
  String.mk (List.reverse (List.dropWhile (fun c => c = '\n') s.data.reverse))

/-- Character-list prefix test underlying `str.startswith`. -/
def startsWithChars : List Char → List Char → Bool
  | [], _ => true
  | _ :: _, [] => false
  | c :: cs, d :: ds => if c = d then startsWithChars cs ds else false

/-- Python `s.startswith(pre)`. -/
def strStartsWith (s pre : String) : Bool :=
  startsWithChars pre.data s.data

/-- Python `s.endswith(suf)`. -/
def strEndsWith (s suf : String) : Bool :=
  startsWithChars suf.data.reverse s.data.reverse

/-- Worker for Python `s.split(sep)` with a one-character separator. -/
def pySplitCharAux (sep : Char) : List Char → List Char → List String
  | [], acc => [String.mk acc.reverse]
  | c :: rest, acc =>
    if c = sep then String.mk acc.reverse :: pySplitCharAux sep rest []
    else pySplitCharAux sep rest (c :: acc)

/-- Python `s.split(sep)` for a one-character separator (keeps empty parts). -/
def pySplitChar (sep : Char) (s : String) : List String :=
  pySplitCharAux sep s.data []

/-- The characters Python `str.strip()` removes by default. -/
def isPySpace (c : Char) : Bool :=
  c = ' ' ∨ c = '\t' ∨ c = '\n' ∨ c = '\r' ∨ c = '\x0b' ∨ c = '\x0c'

/-- Python `s.strip()`: drop leading and trailing whitespace. -/
def pyStrip (s : String) : String :=
  String.mk (((s.data.dropWhile isPySpace).reverse.dropWhile isPySpace).reverse)

/-- CPython `posixpath.join(a, b)` for exactly two arguments. -/
def os_path_join (a b : String) : String :=
  if strStartsWith b "/" then b
  else if a = "" ∨ strEndsWith a "/" then a ++ b
  else a ++ "/" ++ b

/-- Component loop of CPython `posixpath.normpath`: `acc` holds the
accepted components in reverse order. -/
def normpathProcess (initialSlashes : Bool) : List String → List String → List String
  | acc, [] => acc.reverse
  | acc, c :: rest =>
    if c = "" ∨ c = "." then normpathProcess initialSlashes acc rest
    else if c ≠ ".." ∨ (initialSlashes = false ∧ acc = []) ∨ acc.head? = some ".." then
      normpathProcess initialSlashes (c :: acc) rest
    else
      match acc with
      | _ :: t => normpathProcess initialSlashes t rest
      | [] => normpathProcess initialSlashes acc rest

/-- CPython `posixpath.normpath`. -/
def normpath (p : String) : String :=
  if p = "" then "."
  else
    let initSlash : Nat :=
      if strStartsWith p "/" then
        if strStartsWith p "//" ∧ ¬ strStartsWith p "///" then 2 else 1
      else 0
    let comps := pySplitChar '/' p
    let newComps := normpathProcess (0 < initSlash) [] comps
    let res := String.mk (List.replicate initSlash '/') ++ String.intercalate "/" newComps
    if res = "" then "." else res

/-- CPython `posixpath.abspath`, with the process working directory
(`os.getcwd()`) passed explicitly. -/
def os_path_abspath (procCwd p : String) : String :=
  if strStartsWith p "/" then normpath p
  else normpath (os_path_join procCwd p)

/-- The Streamlit session state used by the engine: `st.session_state.cwd`,
`.history`, `.output`, `.running`. -/
structure Session where
  cwd : String
  history : List String
  output : String
  running : Bool
deriving Repr, DecidableEq

/-- Oracle for every filesystem query and operation the dispatcher makes.
Queries (`os.path.exists` and friends) return their answer; operations
(`os.mkdir`, `shutil.rmtree`, ...) either succeed or raise, the raised
exception being modelled as its message string. -/
structure FS where
  getcwd : String
  home : String
  pathExists : String → Bool
  isDir : String → Bool
  isLink : String → Bool
  listdir : String → Except String (List String)
  mkdir : String → Except String Unit
  rmtree : String → Except String Unit
  remove : String → Except String Unit
  copytree : String → String → Except String Unit
  copy2 : String → String → Except String Unit
  move : String → String → Except String Unit

/-- Trace entry: one mutating filesystem call made by the dispatcher. -/
inductive FSEffect where
  | mkdirE (p : String)
  | rmtreeE (p : String)
  | removeE (p : String)
  | copytreeE (src dst : String)
  | copy2E (src dst : String)
  | moveE (src dst : String)
deriving Repr, DecidableEq

/-- The tri-state result of `run_internal_command`: Python's
`(True, text)`, `(False, text)` and `(None, None)`. -/
inductive Dispatch where
  | handled (success : Bool) (text : String)
  | notHandled
deriving Repr, DecidableEq

/-- Result of the body of the `try:` block in `run_internal_command`,
before the `except` clause is applied: a normal return, the
not-an-internal-command return, or a raised exception. -/
inductive BodyRes where
  | ret (success : Bool) (text : String)
  | notInternal
  | exc (msg : String)
deriving Repr, DecidableEq

/-- The `for d in parts[1:]` loop of the `mkdir` branch: attempt each
directory in turn, stopping at the first exception.  Returns the raised
exception (if any) and the trace of `os.mkdir` calls made. -/
def mkdirLoop (fs : FS) (cwd : String) : List String → Option String × List FSEffect
  | [] => (none, [])
  | d :: rest =>
    let path := os_path_join cwd d
    match fs.mkdir path with
    | .error e => (some e, [.mkdirE path])
    | .ok _ =>
      let r := mkdirLoop fs cwd rest
      (r.1, .mkdirE path :: r.2)

/-- The `for target in parts[1:]` loop of the `rm` branch: per-target
messages are collected; an exception from `shutil.rmtree` or `os.remove`
aborts the loop.  Returns the collected messages (or the exception) and
the trace of removal calls made. -/
def rmLoop (fs : FS) (cwd : String) : List String → Except String (List String) × List FSEffect
  | [] => (.ok [], [])
  | t :: rest =>
    let path := os_path_join cwd t
    if fs.pathExists path = false then
      let r := rmLoop fs cwd rest
      (r.1.map (fun ms => ("rm: no such file or directory: " ++ t) :: ms), r.2)
    else if fs.isDir path ∧ ¬ fs.isLink path then
      match fs.rmtree path with
      | .error e => (.error e, [.rmtreeE path])
      | .ok _ =>
        let r := rmLoop fs cwd rest
        (r.1.map (fun ms => ("Removed directory " ++ t) :: ms), .rmtreeE path :: r.2)
    else
      match fs.remove path with
      | .error e => (.error e, [.removeE path])
      | .ok _ =>
        let r := rmLoop fs cwd rest
        (r.1.map (fun ms => ("Removed file " ++ t) :: ms), .removeE path :: r.2)

/-- The `history` branch's list comprehension
`[f"{i+1}: {cmd}" for i, cmd in enumerate(...)]`, with running index `i`. -/
def enumLines : Nat → List String → List String
  | _, [] => []
  | i, c :: rest => (toString (i + 1) ++ ": " ++ c) :: enumLines (i + 1) rest

/-- The static `help` text of the `help` branch. -/
def helpText : String :=
  "Built-in commands: ls, cd, pwd, mkdir, rm, cp, mv, cpu, mem, disk, ps, history, clear, help\n" ++
  "You can also run shell commands."

/-- Body of the `try:` block of `run_internal_command` in `app.py`
(lines 36-119).  `cmd` is `parts[0]`, `args` is `parts[1:]` (the Python
code indexes `parts[0]` before the `try`, so an empty token list is not
in this function's domain).  Returns the body result, the possibly
updated session, and the trace of mutating filesystem calls. -/
def run_internal_command_body (fs : FS) (s : Session) (cmd : String) (args : List String) :
    BodyRes × Session × List FSEffect :=
  if cmd = "pwd" then (.ret true s.cwd, s, [])
  else if cmd = "ls" then
    let target := match args with | [] => "." | t :: _ => t
    let path := os_path_join s.cwd target
    match fs.listdir path with
    | .ok items => (.ret true (String.intercalate "\n" items), s, [])
    | .error e => (.exc e, s, [])
  else if cmd = "cd" then
    let newDir0 := match args with
      | [] => fs.home
      | a :: _ => if a = "~" then fs.home else os_path_join s.cwd a
    let newDir := os_path_abspath fs.getcwd newDir0
    if ¬ fs.pathExists newDir ∨ ¬ fs.isDir newDir then
      match args with
      | [] => (.exc "list index out of range", s, [])
      | a :: _ => (.ret false ("cd: no such directory: " ++ a), s, [])
    else
      (.ret true ("Changed directory to " ++ newDir), { s with cwd := newDir }, [])
  else if cmd = "mkdir" then
    match args with
    | [] => (.ret false "Usage: mkdir <dirname>", s, [])
    | _ :: _ =>
      match mkdirLoop fs s.cwd args with
      | (none, tr) => (.ret true "Directory(ies) created.", s, tr)
      | (some e, tr) => (.exc e, s, tr)
  else if cmd = "rm" then
    match args with
    | [] => (.ret false "Usage: rm <file_or_dir>", s, [])
    | _ :: _ =>
      match rmLoop fs s.cwd args with
      | (.ok msgs, tr) => (.ret true (String.intercalate "\n" msgs), s, tr)
      | (.error e, tr) => (.exc e, s, tr)
  else if cmd = "cp" then
    match args with
    | a :: b :: _ =>
      let src := os_path_join s.cwd a
      let dst := os_path_join s.cwd b
      if fs.isDir src then
        match fs.copytree src dst with
        | .ok _ => (.ret true "Copy completed.", s, [.copytreeE src dst])
        | .error e => (.exc e, s, [.copytreeE src dst])
      else
        match fs.copy2 src dst with
        | .ok _ => (.ret true "Copy completed.", s, [.copy2E src dst])
        | .error e => (.exc e, s, [.copy2E src dst])
    | _ => (.ret false "Usage: cp <source> <dest>", s, [])
  else if cmd = "mv" then
    match args with
    | a :: b :: _ =>
      let src := os_path_join s.cwd a
      let dst := os_path_join s.cwd b
      match fs.move src dst with
      | .ok _ => (.ret true "Move/Rename completed.", s, [.moveE src dst])
      | .error e => (.exc e, s, [.moveE src dst])
    | _ => (.ret false "Usage: mv <source> <dest>", s, [])
  else if cmd = "clear" then
    (.ret true "Cleared output", { s with output := "" }, [])
  else if cmd = "help" then
    (.ret true helpText, s, [])
  else if cmd = "history" then
    if s.history = [] then (.ret true "No command history", s, [])
    else
      let recent := s.history.drop (s.history.length - 20)
      (.ret true (String.intercalate "\n" (enumLines 0 recent)), s, [])
  else (.notInternal, s, [])

/-- `run_internal_command` of `app.py`: the body wrapped in the
`try/except Exception` that converts any raised error into
`(False, f"Error: {e}")`. -/
def run_internal_command (fs : FS) (s : Session) (cmd : String) (args : List String) :
    Dispatch × Session × List FSEffect :=
  match run_internal_command_body fs s cmd args with
  | (.ret ok text, s2, tr) => (.handled ok text, s2, tr)
  | (.notInternal, s2, tr) => (.notHandled, s2, tr)
  | (.exc e, s2, tr) => (.handled false ("Error: " ++ e), s2, tr)

/-- One item put into the queue by `stream_subprocess`: either an output
line (`q.put(string)`) or the terminal sentinel (`q.put(None)`). -/
inductive QItem where
  | line (text : String)
  | sentinel
deriving Repr, DecidableEq

/-- Oracle describing how one subprocess invocation goes:
`spawnFail`: `subprocess.Popen` itself raises (with the given message);
`readFail`: the process spawned, `emitted` raw lines were read, then
reading/waiting raised (with the given message);
`completed`: the process spawned, all raw lines were read and the
process exited with the given code. -/
inductive ProcResult where
  | spawnFail (msg : String)
  | readFail (emitted : List String) (msg : String)
  | completed (lines : List String) (exitCode : Int)
deriving Repr, DecidableEq

/-- Sequence of queue items produced by one run of `stream_subprocess`
(`app.py` lines 126-144).  `Popen` is called before the `try:` block, so
when spawning raises, the exception propagates out of the function and
nothing at all is put on the queue.  When spawning succeeds, the `try`
body reads lines (`rstrip`-ped of newlines), the `except` clause turns a
read failure into an error line, and the `finally` clause always puts
the `None` sentinel. -/
def stream_subprocess : ProcResult → List QItem
  | .spawnFail _ => []
  | .readFail emitted msg =>
      emitted.map (fun l => QItem.line (rstripNewlines l))
        ++ [QItem.line ("Error running process: " ++ msg), QItem.sentinel]
  | .completed lines code =>
      lines.map (fun l => QItem.line (rstripNewlines l))
        ++ [QItem.line ("--- process exited with code " ++ toString code ++ " ---"),
            QItem.sentinel]

/-- `append_output(text)` of `app.py`: `st.session_state.output += f"{text}\n"`. -/
def append_output (s : Session) (text : String) : Session :=
  { s with output := s.output ++ text ++ "\n" }

/-- Consumer loop of the controller (`app.py` lines 242-258): append each
line to the output, stop at the sentinel (after which the worker thread
is finished) or when the queue is exhausted and the thread is dead. -/
def consumeEvents (s : Session) : List QItem → Session
  | [] => s
  | .sentinel :: _ => s
  | .line t :: rest => consumeEvents (append_output s t) rest

/-- The monitoring-alias commands recognized by the controller. -/
def aliasCmds : List String := ["cpu", "mem", "disk", "ps"]

/-- Oracle for the formatted output of the four monitoring aliases
(the `psutil` queries plus f-string formatting, external to the core). -/
structure Metrics where
  cpuLine : String
  memLine : String
  diskLine : String
  psLine : String

/-- The single output block an alias command appends. -/
def metricLine (m : Metrics) (cmd : String) : String :=
  if cmd = "cpu" then m.cpuLine
  else if cmd = "mem" then m.memLine
  else if cmd = "disk" then m.diskLine
  else m.psLine

/-- The submit handler of the execution controller (`app.py` lines
191-260), for one submission with input text `input`.
`tok` is the tokenizer oracle (`shlex.split` with fallback to
`str.split`), `proc` the subprocess oracle.  An empty-after-strip input
is ignored by the guard.  Otherwise the stripped command is appended to
the history unconditionally; alias commands append their metric block
and rerun; other commands are tokenized and dispatched, a handled result
being echoed into the output and a not-handled command being streamed
through `stream_subprocess`.  `none` models the uncaught `IndexError`
the Python code would raise if the tokenizer returned an empty list. -/
def run_handler (fs : FS) (tok : String → List String) (metrics : Metrics)
    (proc : String → ProcResult) (w : Session) (input : String) : Option Session :=
  if pyStrip input = "" then some w
  else
    let cmd := pyStrip input
    let w1 : Session := { w with history := w.history ++ [cmd] }
    if cmd ∈ aliasCmds then
      some (append_output w1 (metricLine metrics cmd))
    else
      match tok cmd with
      | [] => none
      | c :: args =>
        match run_internal_command fs w1 c args with
        | (.handled _ text, w2, _) =>
            some (append_output (append_output w2 ("$ " ++ cmd)) text)
        | (.notHandled, w2, _) =>
            let w3 := append_output w2 ("$ " ++ cmd)
            let w4 : Session := { w3 with running := true }
            let w5 := consumeEvents w4 (stream_subprocess (proc cmd))
            some { w5 with running := false }

/-- The verbs the dispatcher recognizes as internal commands. -/
def internalVerbs : List String :=
  ["pwd", "ls", "cd", "mkdir", "rm", "cp", "mv", "clear", "help", "history"]

/-- Concrete filesystem oracle used in witnesses: nothing exists, every
listing raises, every mutating operation succeeds. -/
def fs0 : FS where
  getcwd := "/root"
  home := "/root"
  pathExists := fun _ => false
  isDir := fun _ => false
  isLink := fun _ => false
  listdir := fun _ => .error "No such file or directory"
  mkdir := fun _ => .ok ()
  rmtree := fun _ => .ok ()
  remove := fun _ => .ok ()
  copytree := fun _ _ => .ok ()
  copy2 := fun _ _ => .ok ()
  move := fun _ _ => .ok ()

/-- Worker for the witness tokenizer: whitespace-separated words. -/
def wordsAux : List Char → List Char → List String
  | [], acc => if acc = [] then [] else [String.mk acc.reverse]
  | c :: rest, acc =>
    if c = ' ' then
      if acc = [] then wordsAux rest []
      else String.mk acc.reverse :: wordsAux rest []
    else wordsAux rest (c :: acc)

/-- Concrete tokenizer oracle used in witnesses: naive whitespace split
(what `shlex.split` computes on the simple inputs the witnesses use). -/
def tok0 (s : String) : List String :=
  wordsAux s.data []

/-- Concrete metrics oracle used in witnesses. -/
def metrics0 : Metrics where
  cpuLine := "CPU: 1.0%"
  memLine := "Memory: 2.0% (1MB used of 2MB)"
  diskLine := "Disk: 3.0% (1GB used of 2GB)"
  psLine := "1 init root 0.0"

/-- Concrete subprocess oracle used in witnesses. -/
def proc0 (_ : String) : ProcResult := .completed ["out\n"] 0

/-- Concrete session used in witnesses. -/
def sess0 : Session where
  cwd := "/root"
  history := []
  output := ""
  running := false

/-! Helper lemmas. -/

theorem count_sentinel_map_line (g : String → String) (l : List String) :
    ((l.map (fun s => QItem.line (g s))).count QItem.sentinel) = 0 := by
  induction l with
  | nil => rfl
  | cons a t ih => simpa [List.count_cons] using ih

theorem getLast_append_pair (l : List QItem) (a b : QItem) :
    (l ++ [a, b]).getLast? = some b := by
  rw [show l ++ [a, b] = (l ++ [a]) ++ [b] by simp]
  exact List.getLast?_concat _

theorem drop_len_sub_two (l : List QItem) (a b : QItem) :
    (l ++ [a, b]).drop ((l ++ [a, b]).length - 2) = [a, b] := by
  have h : (l ++ [a, b]).length - 2 = l.length := by simp
  rw [h]
  exact List.drop_left _ _

theorem enumLines_eq_range (l : List String) :
    ∀ i : Nat, enumLines i l
      = (List.range l.length).map (fun j => toString (i + j + 1) ++ ": " ++ l.getD j "") := by
  induction l with
  | nil => intro i; rfl
  | cons a t ih =>
    intro i
    simp only [enumLines, List.length_cons, List.range_succ_eq_map, List.map_cons, List.map_map]
    refine congrArg₂ _ (by simp) ?_
    rw [ih (i + 1)]
    refine List.map_congr_left ?_
    intro j _
    have harith : i + 1 + j + 1 = i + (j + 1) + 1 := by omega
    simp [Function.comp, harith]

theorem history_slice_eq_range (l : List String) :
    enumLines 0 (l.drop (l.length - 20))
      = (List.range (min l.length 20)).map
          (fun i => toString (i + 1) ++ ": " ++ l.getD (l.length - min l.length 20 + i) "") := by
  rw [enumLines_eq_range]
  have h2 : (l.drop (l.length - 20)).length = min l.length 20 := by
    simp only [List.length_drop]; omega
  rw [h2]
  refine List.map_congr_left ?_
  intro j _
  have hidx : (l.drop (l.length - 20)).getD j "" = l.getD (l.length - min l.length 20 + j) "" := by
    rw [List.getD_eq_getElem?_getD, List.getD_eq_getElem?_getD, List.getElem?_drop]
    have : l.length - 20 + j = l.length - min l.length 20 + j := by omega
    rw [this]
  rw [hidx]
  simp

/-- Equation lemma: the `history` branch of the dispatcher body. -/
theorem body_history_eq (fs : FS) (s : Session) (args : List String) :
    run_internal_command_body fs s "history" args
      = (if s.history = [] then (.ret true "No command history", s, [])
         else (.ret true (String.intercalate "\n"
                 (enumLines 0 (s.history.drop (s.history.length - 20)))), s, [])) := rfl

/-- Equation lemma: the `pwd` branch of the dispatcher body. -/
theorem body_pwd_eq (fs : FS) (s : Session) (args : List String) :
    run_internal_command_body fs s "pwd" args = (.ret true s.cwd, s, []) := rfl

/-- Equation lemma: the `ls` branch of the dispatcher body. -/
theorem body_ls_eq (fs : FS) (s : Session) (args : List String) :
    run_internal_command_body fs s "ls" args
      = (match fs.listdir (os_path_join s.cwd (match args with | [] => "." | t :: _ => t)) with
         | .ok items => (.ret true (String.intercalate "\n" items), s, [])
         | .error e => (.exc e, s, [])) := rfl

/-- Equation lemma: the `cd` branch of the dispatcher body. -/
theorem body_cd_eq (fs : FS) (s : Session) (args : List String) :
    run_internal_command_body fs s "cd" args
      = (let newDir := os_path_abspath fs.getcwd
           (match args with
            | [] => fs.home
            | a :: _ => if a = "~" then fs.home else os_path_join s.cwd a)
         if ¬ fs.pathExists newDir ∨ ¬ fs.isDir newDir then
           match args with
           | [] => (.exc "list index out of range", s, [])
           | a :: _ => (.ret false ("cd: no such directory: " ++ a), s, [])
         else
           (.ret true ("Changed directory to " ++ newDir), { s with cwd := newDir }, [])) := rfl

/-- Equation lemma: the `mkdir` branch of the dispatcher body. -/
theorem body_mkdir_eq (fs : FS) (s : Session) (args : List String) :
    run_internal_command_body fs s "mkdir" args
      = (match args with
         | [] => (.ret false "Usage: mkdir <dirname>", s, [])
         | _ :: _ =>
           match mkdirLoop fs s.cwd args with
           | (none, tr) => (.ret true "Directory(ies) created.", s, tr)
           | (some e, tr) => (.exc e, s, tr)) := rfl

/-- Equation lemma: the `rm` branch of the dispatcher body. -/
theorem body_rm_eq (fs : FS) (s : Session) (args : List String) :
    run_internal_command_body fs s "rm" args
      = (match args with
         | [] => (.ret false "Usage: rm <file_or_dir>", s, [])
         | _ :: _ =>
           match rmLoop fs s.cwd args with
           | (.ok msgs, tr) => (.ret true (String.intercalate "\n" msgs), s, tr)
           | (.error e, tr) => (.exc e, s, tr)) := rfl

/-- Equation lemma: the `cp` branch of the dispatcher body. -/
theorem body_cp_eq (fs : FS) (s : Session) (args : List String) :
    run_internal_command_body fs s "cp" args
      = (match args with
         | a :: b :: _ =>
           if fs.isDir (os_path_join s.cwd a) then
             match fs.copytree (os_path_join s.cwd a) (os_path_join s.cwd b) with
             | .ok _ => (.ret true "Copy completed.", s,
                 [.copytreeE (os_path_join s.cwd a) (os_path_join s.cwd b)])
             | .error e => (.exc e, s,
                 [.copytreeE (os_path_join s.cwd a) (os_path_join s.cwd b)])
           else
             match fs.copy2 (os_path_join s.cwd a) (os_path_join s.cwd b) with
             | .ok _ => (.ret true "Copy completed.", s,
                 [.copy2E (os_path_join s.cwd a) (os_path_join s.cwd b)])
             | .error e => (.exc e, s,
                 [.copy2E (os_path_join s.cwd a) (os_path_join s.cwd b)])
         | _ => (.ret false "Usage: cp <source> <dest>", s, [])) := rfl

/-- Equation lemma: the `mv` branch of the dispatcher body. -/
theorem body_mv_eq (fs : FS) (s : Session) (args : List String) :
    run_internal_command_body fs s "mv" args
      = (match args with
         | a :: b :: _ =>
           match fs.move (os_path_join s.cwd a) (os_path_join s.cwd b) with
           | .ok _ => (.ret true "Move/Rename completed.", s,
               [.moveE (os_path_join s.cwd a) (os_path_join s.cwd b)])
           | .error e => (.exc e, s,
               [.moveE (os_path_join s.cwd a) (os_path_join s.cwd b)])
         | _ => (.ret false "Usage: mv <source> <dest>", s, [])) := rfl

/-- Equation lemma: the `clear` branch of the dispatcher body. -/
theorem body_clear_eq (fs : FS) (s : Session) (args : List String) :
    run_internal_command_body fs s "clear" args
      = (.ret true "Cleared output", { s with output := "" }, []) := rfl

/-- Equation lemma: the `help` branch of the dispatcher body. -/
theorem body_help_eq (fs : FS) (s : Session) (args : List String) :
    run_internal_command_body fs s "help" args = (.ret true helpText, s, []) := rfl

/-- Equation lemma: an unrecognized verb reaches the final `else`. -/
theorem body_not_internal_eq (fs : FS) (s : Session) (cmd : String) (args : List String)
    (h : cmd ∉ internalVerbs) :
    run_internal_command_body fs s cmd args = (.notInternal, s, []) := by
  simp only [internalVerbs, List.mem_cons, List.not_mem_nil, or_false, not_or] at h
  obtain ⟨h1, h2, h3, h4, h5, h6, h7, h8, h9, h10⟩ := h
  unfold run_internal_command_body
  rw [if_neg h1, if_neg h2, if_neg h3, if_neg h4, if_neg h5, if_neg h6, if_neg h7,
    if_neg h8, if_neg h9, if_neg h10]

/-! Claim theorems. -/

/-- C1 counterexample: the claim states that every invocation of
`stream_subprocess` produces exactly one `Done` (sentinel) event, and
that a spawn failure produces a failure `Line` followed by `Done`.  But
`subprocess.Popen` is called before the `try:` block, so when spawning
raises, the function propagates the exception and puts nothing on the
queue: the event sequence is empty and contains zero `Done` events. -/
theorem C1_spawn_failure_counterexample :
    stream_subprocess (ProcResult.spawnFail "boom") = []
    ∧ ¬ (stream_subprocess (ProcResult.spawnFail "boom")).count QItem.sentinel = 1 := by
  exact ⟨rfl, by decide⟩

/-- C1 amended: when the subprocess spawns successfully, the event
sequence of `stream_subprocess` contains exactly one `Done` (sentinel)
event, it is the last event, and no `Line` occurs after it; on a read
failure, a single `Line` describing the failure is emitted immediately
followed by `Done`.  When spawning itself fails, the exception
propagates and no events at all are produced. -/
theorem C1_stream_exactly_one_done (lines emitted : List String) (code : Int) (msg : String) :
    ((stream_subprocess (ProcResult.completed lines code)).count QItem.sentinel = 1
      ∧ (stream_subprocess (ProcResult.completed lines code)).getLast? = some QItem.sentinel)
    ∧ ((stream_subprocess (ProcResult.readFail emitted msg)).count QItem.sentinel = 1
      ∧ (stream_subprocess (ProcResult.readFail emitted msg)).getLast? = some QItem.sentinel
      ∧ (stream_subprocess (ProcResult.readFail emitted msg)).drop
          ((stream_subprocess (ProcResult.readFail emitted msg)).length - 2)
        = [QItem.line ("Error running process: " ++ msg), QItem.sentinel])
    ∧ stream_subprocess (ProcResult.spawnFail msg) = [] := by
  refine ⟨⟨?_, ?_⟩, ⟨?_, ?_, ?_⟩, rfl⟩
  · simp [stream_subprocess, count_sentinel_map_line, List.count_cons]
  · exact getLast_append_pair _ _ _
  · simp [stream_subprocess, count_sentinel_map_line, List.count_cons]
  · exact getLast_append_pair _ _ _
  · exact drop_len_sub_two _ _ _

/-- C2 counterexample: with a history of 21 entries the claim predicts
displayed numbers max(1, 21-19) = 2 through 21, but the code enumerates
the sliced list from zero, so the numbers shown are 1 through 20. -/
theorem C2_numbering_counterexample :
    (run_internal_command fs0
        { cwd := "/r", history := List.replicate 21 "x", output := "", running := false }
        "history" []).1
      = Dispatch.handled true
          "1: x\n2: x\n3: x\n4: x\n5: x\n6: x\n7: x\n8: x\n9: x\n10: x\n11: x\n12: x\n13: x\n14: x\n15: x\n16: x\n17: x\n18: x\n19: x\n20: x"
    ∧ ("1: x\n2: x\n3: x\n4: x\n5: x\n6: x\n7: x\n8: x\n9: x\n10: x\n11: x\n12: x\n13: x\n14: x\n15: x\n16: x\n17: x\n18: x\n19: x\n20: x" : String)
      ≠ "2: x\n3: x\n4: x\n5: x\n6: x\n7: x\n8: x\n9: x\n10: x\n11: x\n12: x\n13: x\n14: x\n15: x\n16: x\n17: x\n18: x\n19: x\n20: x\n21: x" := by
  exact ⟨by decide, by decide⟩

/-- C2 amended: for every session whose history is non-empty, the
`history` built-in returns a success outcome listing the last
min(N, 20) history entries in order, with displayed numbers starting
at 1 and ending at min(N, 20); the session and the effect trace are
untouched. -/
theorem C2_history_listing (fs : FS) (s : Session) (args : List String)
    (h : s.history ≠ []) :
    (run_internal_command fs s "history" args).1
      = Dispatch.handled true (String.intercalate "\n"
          ((List.range (min s.history.length 20)).map
            (fun i => toString (i + 1) ++ ": "
              ++ s.history.getD (s.history.length - min s.history.length 20 + i) "")))
    ∧ (run_internal_command fs s "history" args).2.1 = s
    ∧ (run_internal_command fs s "history" args).2.2 = [] := by
  unfold run_internal_command
  rw [body_history_eq, if_neg h, history_slice_eq_range]
  exact ⟨rfl, rfl, rfl⟩

/-- C2 witness: the amended theorem applied to a concrete two-entry
history, where the listing is "1: a" then "2: b". -/
theorem C2_history_listing_witness :
    (run_internal_command fs0 { cwd := "/r", history := ["a", "b"], output := "", running := false }
        "history" []).1
      = Dispatch.handled true (String.intercalate "\n"
          ((List.range (min (["a", "b"] : List String).length 20)).map
            (fun i => toString (i + 1) ++ ": "
              ++ (["a", "b"] : List String).getD
                  ((["a", "b"] : List String).length - min (["a", "b"] : List String).length 20 + i) ""))) :=
  (C2_history_listing fs0
    { cwd := "/r", history := ["a", "b"], output := "", running := false } [] (by decide)).1

/-- The `new_dir` value the `cd` branch computes for a first argument
`p`: home for `~`, otherwise `p` joined to the session cwd, then made
absolute and normalized. -/
def cdTarget (fs : FS) (s : Session) (p : String) : String :=
  os_path_abspath fs.getcwd (if p = "~" then fs.home else os_path_join s.cwd p)

/-- Per-target message of the `rm` loop, as a function of the target. -/
def rmMsgOf (fs : FS) (cwd t : String) : String :=
  if fs.pathExists (os_path_join cwd t) = false then
    "rm: no such file or directory: " ++ t
  else if fs.isDir (os_path_join cwd t) ∧ ¬ fs.isLink (os_path_join cwd t) then
    "Removed directory " ++ t
  else "Removed file " ++ t

/-- Per-target removal calls of the `rm` loop, as a function of the target. -/
def rmEffOf (fs : FS) (cwd t : String) : List FSEffect :=
  if fs.pathExists (os_path_join cwd t) = false then []
  else if fs.isDir (os_path_join cwd t) ∧ ¬ fs.isLink (os_path_join cwd t) then
    [FSEffect.rmtreeE (os_path_join cwd t)]
  else [FSEffect.removeE (os_path_join cwd t)]

/-- When no target exists, the `rm` loop makes no removal call and
collects one "no such file" message per target. -/
theorem rmLoop_all_missing (fs : FS) (cwd : String) :
    ∀ targets : List String,
      (∀ t ∈ targets, fs.pathExists (os_path_join cwd t) = false) →
      rmLoop fs cwd targets
        = (.ok (targets.map (fun t => "rm: no such file or directory: " ++ t)), []) := by
  intro targets
  induction targets with
  | nil => intro _; rfl
  | cons t rest ih =>
    intro hmiss
    have ht := hmiss t (List.mem_cons_self t rest)
    have hrest : ∀ x ∈ rest, fs.pathExists (os_path_join cwd x) = false :=
      fun x hx => hmiss x (List.mem_cons_of_mem t hx)
    simp [rmLoop, ht, ih hrest, Except.map]

/-- When every removal call succeeds, the `rm` loop returns the
per-target messages in order and the flattened per-target traces. -/
theorem rmLoop_ok (fs : FS) (cwd : String) :
    ∀ targets : List String,
      (∀ t ∈ targets, fs.rmtree (os_path_join cwd t) = .ok ()
        ∧ fs.remove (os_path_join cwd t) = .ok ()) →
      rmLoop fs cwd targets
        = (.ok (targets.map (rmMsgOf fs cwd)), (targets.map (rmEffOf fs cwd)).flatten) := by
  intro targets
  induction targets with
  | nil => intro _; rfl
  | cons t rest ih =>
    intro hops
    have ht := hops t (List.mem_cons_self t rest)
    have hrest : ∀ x ∈ rest, fs.rmtree (os_path_join cwd x) = Except.ok ()
        ∧ fs.remove (os_path_join cwd x) = Except.ok () :=
      fun x hx => hops x (List.mem_cons_of_mem t hx)
    by_cases hp : fs.pathExists (os_path_join cwd t) = false
    · simp [rmLoop, hp, ih hrest, rmMsgOf, rmEffOf, Except.map]
    · by_cases hd : fs.isDir (os_path_join cwd t) = true ∧ fs.isLink (os_path_join cwd t) = false
      · simp [rmLoop, Bool.not_eq_true, hp, hd, ht.1, ih hrest, rmMsgOf, rmEffOf, Except.map]
      · simp [rmLoop, Bool.not_eq_true, hp, hd, ht.2, ih hrest, rmMsgOf, rmEffOf, Except.map]

/-- C3 counterexample: the claim demands a usage error whenever the
number of arguments is not exactly two, but `cp a b c` (three
arguments) is accepted: the code only checks `len(parts) < 3`, uses the
first two arguments and reports success. -/
theorem C3_extra_args_counterexample :
    (run_internal_command fs0 sess0 "cp" ["a", "b", "c"]).1
      = Dispatch.handled true "Copy completed."
    ∧ Dispatch.handled true "Copy completed."
      ≠ Dispatch.handled false "Usage: cp <source> <dest>" := by
  exact ⟨rfl, by decide⟩

/-- C3 amended: `cp` and `mv` return a failed-handled usage error
precisely when fewer than two arguments follow the verb; with two or
more arguments the first two are used and any extra arguments are
ignored, `cp` invoking the recursive tree copy when the source is a
directory and the metadata-preserving single-file copy otherwise, and
`mv` invoking the move/rename primitive (whose cross-filesystem
fallback is the library's). -/
theorem C3_cp_mv_arity (fs : FS) (s : Session) (a b : String) (rest : List String) :
    run_internal_command fs s "cp" [] = (Dispatch.handled false "Usage: cp <source> <dest>", s, [])
    ∧ run_internal_command fs s "cp" [a]
        = (Dispatch.handled false "Usage: cp <source> <dest>", s, [])
    ∧ run_internal_command fs s "mv" []
        = (Dispatch.handled false "Usage: mv <source> <dest>", s, [])
    ∧ run_internal_command fs s "mv" [a]
        = (Dispatch.handled false "Usage: mv <source> <dest>", s, [])
    ∧ run_internal_command fs s "cp" (a :: b :: rest) = run_internal_command fs s "cp" [a, b]
    ∧ run_internal_command fs s "mv" (a :: b :: rest) = run_internal_command fs s "mv" [a, b]
    ∧ (fs.isDir (os_path_join s.cwd a) = true →
        (run_internal_command fs s "cp" (a :: b :: rest)).2.2
          = [FSEffect.copytreeE (os_path_join s.cwd a) (os_path_join s.cwd b)])
    ∧ (fs.isDir (os_path_join s.cwd a) = false →
        (run_internal_command fs s "cp" (a :: b :: rest)).2.2
          = [FSEffect.copy2E (os_path_join s.cwd a) (os_path_join s.cwd b)])
    ∧ (run_internal_command fs s "mv" (a :: b :: rest)).2.2
        = [FSEffect.moveE (os_path_join s.cwd a) (os_path_join s.cwd b)] := by
  refine ⟨rfl, rfl, rfl, rfl, rfl, rfl, ?_, ?_, ?_⟩
  · intro h
    unfold run_internal_command
    rw [body_cp_eq]
    cases hc : fs.copytree (os_path_join s.cwd a) (os_path_join s.cwd b) <;> simp [h, hc]
  · intro h
    unfold run_internal_command
    rw [body_cp_eq]
    cases hc : fs.copy2 (os_path_join s.cwd a) (os_path_join s.cwd b) <;> simp [h, hc]
  · unfold run_internal_command
    rw [body_mv_eq]
    cases hc : fs.move (os_path_join s.cwd a) (os_path_join s.cwd b) <;> simp [hc]

/-- C3 witness: the amended theorem applied at a concrete input whose
source is not a directory, exercising the copy2 trace conjunct. -/
theorem C3_cp_mv_arity_witness :
    (run_internal_command fs0 sess0 "cp" ["a", "b", "c"]).2.2
      = [FSEffect.copy2E (os_path_join sess0.cwd "a") (os_path_join sess0.cwd "b")] :=
  (C3_cp_mv_arity fs0 sess0 "a" "b" ["c"]).2.2.2.2.2.2.2.1 rfl

/-- C4 confirmed: a `cd` whose resolved path does not exist or is not a
directory returns a failed-handled outcome and leaves the session (in
particular its cwd) unchanged; a `cd` to an existing directory updates
the cwd to the absolute, normalized form of the resolved path and
reports that path.  The last two conjuncts cover the no-argument form
(`cd` resolving to the home directory). -/
theorem C4_cd_updates_cwd (fs : FS) (s : Session) (p : String) (rest : List String) :
    ((fs.pathExists (cdTarget fs s p) = false ∨ fs.isDir (cdTarget fs s p) = false) →
      run_internal_command fs s "cd" (p :: rest)
        = (Dispatch.handled false ("cd: no such directory: " ++ p), s, []))
    ∧ (fs.pathExists (cdTarget fs s p) = true → fs.isDir (cdTarget fs s p) = true →
      run_internal_command fs s "cd" (p :: rest)
        = (Dispatch.handled true ("Changed directory to " ++ cdTarget fs s p),
           { s with cwd := cdTarget fs s p }, []))
    ∧ ((fs.pathExists (os_path_abspath fs.getcwd fs.home) = false
        ∨ fs.isDir (os_path_abspath fs.getcwd fs.home) = false) →
      ∃ t, run_internal_command fs s "cd" [] = (Dispatch.handled false t, s, []))
    ∧ (fs.pathExists (os_path_abspath fs.getcwd fs.home) = true →
       fs.isDir (os_path_abspath fs.getcwd fs.home) = true →
      run_internal_command fs s "cd" []
        = (Dispatch.handled true ("Changed directory to " ++ os_path_abspath fs.getcwd fs.home),
           { s with cwd := os_path_abspath fs.getcwd fs.home }, [])) := by
  refine ⟨?_, ?_, ?_, ?_⟩
  · intro h
    unfold run_internal_command
    rw [body_cd_eq]
    rw [if_pos (by rcases h with h | h <;> simp [cdTarget] at h ⊢ <;> simp [h])]
  · intro h1 h2
    unfold run_internal_command
    rw [body_cd_eq]
    rw [if_neg (by simp [cdTarget] at h1 h2 ⊢; simp [h1, h2])]
    rfl
  · intro h
    refine ⟨"Error: list index out of range", ?_⟩
    unfold run_internal_command
    rw [body_cd_eq]
    rw [if_pos (by rcases h with h | h <;> simp [h])]
    rfl
  · intro h1 h2
    unfold run_internal_command
    rw [body_cd_eq]
    rw [if_neg (by simp [h1, h2])]

/-- C4 witness: the amended-free theorem applied at concrete inputs, one
failing `cd` (nothing exists under `fs0`) and one successful `cd` under
an all-directories oracle. -/
theorem C4_cd_updates_cwd_witness :
    run_internal_command fs0 sess0 "cd" ["sub"]
      = (Dispatch.handled false "cd: no such directory: sub", sess0, []) :=
  (C4_cd_updates_cwd fs0 sess0 "sub" []).1 (Or.inl rfl)

/-- C5 confirmed: for `rm` with at least one target, missing targets
never raise and never abort the loop — each contributes a per-target
"no such file" message, the outcome stays success, and no removal call
is made for it; an existing directory that is not a symlink is removed
recursively (`rmtree`), any other existing target as a single file
(`remove`); all per-target messages are joined into one success result.
The second conjunct assumes the removal primitives themselves raise no
I/O error. -/
theorem C5_rm_missing_targets (fs : FS) (s : Session) (targets : List String)
    (hne : targets ≠ []) :
    ((∀ t ∈ targets, fs.pathExists (os_path_join s.cwd t) = false) →
      run_internal_command fs s "rm" targets
        = (Dispatch.handled true (String.intercalate "\n"
            (targets.map (fun t => "rm: no such file or directory: " ++ t))), s, []))
    ∧ ((∀ t ∈ targets, fs.rmtree (os_path_join s.cwd t) = .ok ()
          ∧ fs.remove (os_path_join s.cwd t) = .ok ()) →
      run_internal_command fs s "rm" targets
        = (Dispatch.handled true (String.intercalate "\n" (targets.map (rmMsgOf fs s.cwd))),
           s, (targets.map (rmEffOf fs s.cwd)).flatten)) := by
  cases targets with
  | nil => exact absurd rfl hne
  | cons t rest =>
    constructor
    · intro hmiss
      unfold run_internal_command
      rw [body_rm_eq, rmLoop_all_missing fs s.cwd (t :: rest) hmiss]
    · intro hops
      unfold run_internal_command
      rw [body_rm_eq, rmLoop_ok fs s.cwd (t :: rest) hops]

/-- C5 witness: the theorem applied to a concrete oracle under which the
first target is a real directory, the second is missing. -/
theorem C5_rm_missing_targets_witness :
    run_internal_command
        { fs0 with pathExists := fun p => p = "/r/a", isDir := fun _ => true }
        { sess0 with cwd := "/r" } "rm" ["a", "b"]
      = (Dispatch.handled true (String.intercalate "\n"
          ((["a", "b"] : List String).map
            (rmMsgOf { fs0 with pathExists := fun p => p = "/r/a", isDir := fun _ => true } "/r"))),
         { sess0 with cwd := "/r" },
         ((["a", "b"] : List String).map
            (rmEffOf { fs0 with pathExists := fun p => p = "/r/a", isDir := fun _ => true } "/r")).flatten) :=
  (C5_rm_missing_targets
    { fs0 with pathExists := fun p => p = "/r/a", isDir := fun _ => true }
    { sess0 with cwd := "/r" } ["a", "b"] (by decide)).2
    (by intro x hx; exact ⟨rfl, rfl⟩)

/-- A recognized verb never reaches the final `else` of the body. -/
theorem body_ne_notInternal (fs : FS) (s : Session) (cmd : String) (args : List String)
    (h : cmd ∈ internalVerbs) :
    (run_internal_command_body fs s cmd args).1 ≠ BodyRes.notInternal := by
  simp only [internalVerbs, List.mem_cons, List.not_mem_nil, or_false] at h
  rcases h with rfl | rfl | rfl | rfl | rfl | rfl | rfl | rfl | rfl | rfl
  · rw [body_pwd_eq]; simp
  · rw [body_ls_eq]; split <;> simp
  · rw [body_cd_eq]
    cases args <;> dsimp only <;> (repeat' split) <;> simp
  · rw [body_mkdir_eq]; split
    · simp
    · split <;> simp
  · rw [body_rm_eq]; split
    · simp
    · split <;> simp
  · rw [body_cp_eq]; split
    · split
      · split <;> simp
      · split <;> simp
    · simp
  · rw [body_mv_eq]; split
    · split <;> simp
    · simp
  · rw [body_clear_eq]; simp
  · rw [body_help_eq]; simp
  · rw [body_history_eq]; split <;> simp

/-- The dispatcher body never touches the history. -/
theorem body_history_preserved (fs : FS) (s : Session) (cmd : String) (args : List String) :
    (run_internal_command_body fs s cmd args).2.1.history = s.history := by
  by_cases h : cmd ∈ internalVerbs
  · simp only [internalVerbs, List.mem_cons, List.not_mem_nil, or_false] at h
    rcases h with rfl | rfl | rfl | rfl | rfl | rfl | rfl | rfl | rfl | rfl
    · rw [body_pwd_eq]
    · rw [body_ls_eq]; split <;> rfl
    · rw [body_cd_eq]
      cases args <;> dsimp only <;> (repeat' split) <;> simp
    · rw [body_mkdir_eq]; split
      · rfl
      · split <;> rfl
    · rw [body_rm_eq]; split
      · rfl
      · split <;> rfl
    · rw [body_cp_eq]; split
      · split
        · split <;> rfl
        · split <;> rfl
      · rfl
    · rw [body_mv_eq]; split
      · split <;> rfl
      · rfl
    · rw [body_clear_eq]
    · rw [body_help_eq]
    · rw [body_history_eq]; split <;> rfl
  · rw [body_not_internal_eq fs s cmd args h]

/-- The dispatcher never touches the history. -/
theorem run_internal_command_history (fs : FS) (s : Session) (cmd : String) (args : List String) :
    (run_internal_command fs s cmd args).2.1.history = s.history := by
  have hb := body_history_preserved fs s cmd args
  unfold run_internal_command
  rcases h2 : run_internal_command_body fs s cmd args with ⟨br, s2, tr⟩
  rw [h2] at hb
  cases br <;> simpa using hb

/-- The streaming consumer loop only appends to the output. -/
theorem consumeEvents_history (evs : List QItem) :
    ∀ s : Session, (consumeEvents s evs).history = s.history := by
  induction evs with
  | nil => intro s; rfl
  | cons q rest ih =>
    intro s
    cases q with
    | sentinel => rfl
    | line t => exact ih (append_output s t)

/-- Equation lemma: the alias branch of the submit handler. -/
theorem run_handler_alias_eq (fs : FS) (tok : String → List String) (metrics : Metrics)
    (proc : String → ProcResult) (w : Session) (input : String)
    (h1 : pyStrip input ≠ "") (ha : pyStrip input ∈ aliasCmds) :
    run_handler fs tok metrics proc w input
      = some (append_output { w with history := w.history ++ [pyStrip input] }
          (metricLine metrics (pyStrip input))) := by
  simp only [run_handler]
  rw [if_neg h1, if_pos ha]

/-- Equation lemma: the dispatch branch of the submit handler. -/
theorem run_handler_dispatch_eq (fs : FS) (tok : String → List String) (metrics : Metrics)
    (proc : String → ProcResult) (w : Session) (input : String) (c : String) (args : List String)
    (h1 : pyStrip input ≠ "") (ha : pyStrip input ∉ aliasCmds) (htok : tok (pyStrip input) = c :: args) :
    run_handler fs tok metrics proc w input
      = (match run_internal_command fs { w with history := w.history ++ [pyStrip input] } c args with
         | (.handled _ text, w2, _) =>
             some (append_output (append_output w2 ("$ " ++ pyStrip input)) text)
         | (.notHandled, w2, _) =>
             some { consumeEvents
                      { append_output w2 ("$ " ++ pyStrip input) with running := true }
                      (stream_subprocess (proc (pyStrip input))) with running := false }) := by
  simp only [run_handler]
  rw [if_neg h1, if_neg ha, htok]

/-- One submission with a non-empty stripped input and a non-empty
tokenization appends exactly the stripped command to the history,
whatever the dispatch outcome. -/
theorem run_handler_appends_history (fs : FS) (tok : String → List String) (metrics : Metrics)
    (proc : String → ProcResult) (w : Session) (input : String)
    (h1 : pyStrip input ≠ "") (h2 : tok (pyStrip input) ≠ []) :
    ∃ w', run_handler fs tok metrics proc w input = some w'
      ∧ w'.history = w.history ++ [pyStrip input] := by
  by_cases ha : pyStrip input ∈ aliasCmds
  · exact ⟨_, run_handler_alias_eq fs tok metrics proc w input h1 ha, rfl⟩
  · cases htok : tok (pyStrip input) with
    | nil => exact absurd htok h2
    | cons c args =>
      rcases hd : run_internal_command fs { w with history := w.history ++ [pyStrip input] } c args
        with ⟨d, w2, tr⟩
      have hw2 : w2.history = w.history ++ [pyStrip input] := by
        have hh := run_internal_command_history fs
          { w with history := w.history ++ [pyStrip input] } c args
        rw [hd] at hh
        simpa using hh
      cases d with
      | handled ok text =>
        refine ⟨append_output (append_output w2 ("$ " ++ pyStrip input)) text, ?_, ?_⟩
        · rw [run_handler_dispatch_eq fs tok metrics proc w input c args h1 ha htok, hd]
        · simpa [append_output] using hw2
      | notHandled =>
        refine ⟨{ consumeEvents { append_output w2 ("$ " ++ pyStrip input) with running := true }
            (stream_subprocess (proc (pyStrip input))) with running := false }, ?_, ?_⟩
        · rw [run_handler_dispatch_eq fs tok metrics proc w input c args h1 ha htok, hd]
        · simpa [consumeEvents_history, append_output] using hw2

/-- `enumLines` over a list ending in `c` ends in the line numbering `c`. -/
theorem enumLines_concat (l : List String) :
    ∀ (i : Nat) (c : String),
      enumLines i (l ++ [c]) = enumLines i l ++ [toString (i + l.length + 1) ++ ": " ++ c] := by
  induction l with
  | nil => intro i c; simp [enumLines]
  | cons a t ih =>
    intro i c
    have harith : i + 1 + t.length + 1 = i + (t.length + 1) + 1 := by omega
    show (toString (i + 1) ++ ": " ++ a) :: enumLines (i + 1) (t ++ [c])
        = (toString (i + 1) ++ ": " ++ a)
          :: (enumLines (i + 1) t ++ [toString (i + (a :: t).length + 1) ++ ": " ++ c])
    rw [ih (i + 1) c, List.length_cons, harith]

/-- `enumLines` produces one line per entry. -/
theorem enumLines_length (l : List String) : ∀ i : Nat, (enumLines i l).length = l.length := by
  induction l with
  | nil => intro i; rfl
  | cons a t ih => intro i; simp [enumLines, ih]

/-- C6 confirmed: for any token list whose verb is a recognized
built-in, whenever the body of the dispatcher raises (result `exc e`),
the dispatcher returns the failed-handled outcome "Error: <e>"; and for
a recognized verb the dispatcher always returns a `handled` outcome —
never `notHandled` and, the embedding being a total function whose only
error channel is the caught `exc`, never an exception to the
controller. -/
theorem C6_errors_absorbed (fs : FS) (s : Session) (cmd : String) (args : List String)
    (h : cmd ∈ internalVerbs) :
    (∀ e, (run_internal_command_body fs s cmd args).1 = BodyRes.exc e →
      (run_internal_command fs s cmd args).1 = Dispatch.handled false ("Error: " ++ e))
    ∧ ∃ ok t, (run_internal_command fs s cmd args).1 = Dispatch.handled ok t := by
  have hni := body_ne_notInternal fs s cmd args h
  constructor
  · intro e he
    unfold run_internal_command
    rcases hb : run_internal_command_body fs s cmd args with ⟨br, s2, tr⟩
    rw [hb] at he
    simp only at he
    subst he
    rfl
  · unfold run_internal_command
    rcases hb : run_internal_command_body fs s cmd args with ⟨br, s2, tr⟩
    rw [hb] at hni
    cases br with
    | ret ok text => exact ⟨ok, text, rfl⟩
    | notInternal => exact (hni rfl).elim
    | exc e => exact ⟨false, "Error: " ++ e, rfl⟩

/-- C6 witness: under `fs0` every `listdir` raises, and the raised
message surfaces as a failed-handled "Error: ..." text. -/
theorem C6_errors_absorbed_witness :
    (run_internal_command fs0 sess0 "ls" []).1
      = Dispatch.handled false ("Error: " ++ "No such file or directory") :=
  (C6_errors_absorbed fs0 sess0 "ls" [] (by decide)).1 "No such file or directory" rfl

/-- C7 confirmed: submitting N commands (each non-blank after
stripping, each tokenizing to a non-empty token list) appends each
stripped command string to the history unconditionally — aliases,
unknown and failing commands included — so the history grows by exactly
those N commands in submission order. -/
theorem C7_history_unconditional (fs : FS) (tok : String → List String) (metrics : Metrics)
    (proc : String → ProcResult) (w : Session) (inputs : List String)
    (h : ∀ i ∈ inputs, pyStrip i ≠ "" ∧ tok (pyStrip i) ≠ []) :
    ∃ w', List.foldlM (fun acc inp => run_handler fs tok metrics proc acc inp) w inputs
        = some w'
      ∧ w'.history = w.history ++ inputs.map pyStrip := by
  induction inputs generalizing w with
  | nil => exact ⟨w, rfl, by simp⟩
  | cons i rest ih =>
    obtain ⟨hi1, hi2⟩ := h i (List.mem_cons_self i rest)
    obtain ⟨w1, hw1, hh1⟩ :=
      run_handler_appends_history fs tok metrics proc w i hi1 hi2
    obtain ⟨w', hw', hh'⟩ := ih w1 (fun x hx => h x (List.mem_cons_of_mem i hx))
    refine ⟨w', ?_, ?_⟩
    · rw [List.foldlM_cons, hw1]
      exact hw'
    · rw [hh', hh1]
      simp


/-- C7 counterexample: the claim says the raw command string is
appended, but the controller appends `cmd_input.strip()`: submitting
" ls " (with surrounding spaces) stores "ls", not " ls ". -/
theorem C7_raw_vs_stripped_counterexample :
    (∃ w', run_handler fs0 tok0 metrics0 proc0 sess0 " ls " = some w'
      ∧ w'.history = ["ls"])
    ∧ (["ls"] : List String) ≠ [" ls "] := by
  exact ⟨⟨_, rfl, by decide⟩, by decide⟩

/-- C7 witness: three concrete submissions — a built-in, an unknown
command (streamed) and a monitoring alias — leave exactly those three
stripped commands in the history, in order. -/
theorem C7_history_unconditional_witness :
    ∃ w', List.foldlM (fun acc inp => run_handler fs0 tok0 metrics0 proc0 acc inp) sess0
        [" pwd ", "frobnicate", "cpu"] = some w'
      ∧ w'.history = sess0.history ++ ([" pwd ", "frobnicate", "cpu"].map pyStrip) :=
  C7_history_unconditional fs0 tok0 metrics0 proc0 sess0 [" pwd ", "frobnicate", "cpu"]
    (by decide)

/-- C8 confirmed: a submission that tokenizes to the `history` verb
reaches the dispatcher only after the submitted command has been
appended, so the dispatcher sees the non-empty history
`w.history ++ [pyStrip input]` (the "No command history" branch is
unreachable through the controller) and the output receives the echo
line followed by a listing whose final line numbers the `history`
invocation itself as entry min(N+1, 20). -/
theorem C8_history_sees_itself (fs : FS) (tok : String → List String) (metrics : Metrics)
    (proc : String → ProcResult) (w : Session) (input : String)
    (h1 : pyStrip input ≠ "") (ha : pyStrip input ∉ aliasCmds)
    (htok : tok (pyStrip input) = ["history"]) :
    ∃ pre : List String,
      run_handler fs tok metrics proc w input
        = some (append_output
            (append_output { w with history := w.history ++ [pyStrip input] } ("$ " ++ pyStrip input))
            (String.intercalate "\n"
              (pre ++ [toString (min (w.history.length + 1) 20) ++ ": " ++ pyStrip input])))
      ∧ pre.length + 1 = min (w.history.length + 1) 20
      ∧ w.history ++ [pyStrip input] ≠ [] := by
  have hne : w.history ++ [pyStrip input] ≠ [] := by simp
  have hm : w.history.length + 1 - 20 ≤ w.history.length := by omega
  have hlen : (w.history ++ [pyStrip input]).length = w.history.length + 1 := by simp
  have hdrop : (w.history ++ [pyStrip input]).drop ((w.history ++ [pyStrip input]).length - 20)
      = w.history.drop (w.history.length + 1 - 20) ++ [pyStrip input] := by
    rw [hlen, List.drop_append_of_le_length hm]
  have hlen2 : (w.history.drop (w.history.length + 1 - 20)).length
      = min (w.history.length + 1) 20 - 1 := by
    simp only [List.length_drop]
    omega
  have hT : enumLines 0 ((w.history ++ [pyStrip input]).drop ((w.history ++ [pyStrip input]).length - 20))
      = enumLines 0 (w.history.drop (w.history.length + 1 - 20))
        ++ [toString (min (w.history.length + 1) 20) ++ ": " ++ pyStrip input] := by
    rw [hdrop, enumLines_concat]
    have harith : 0 + (w.history.drop (w.history.length + 1 - 20)).length + 1
        = min (w.history.length + 1) 20 := by
      rw [hlen2]; omega
    rw [harith]
  have hdisp : run_internal_command fs { w with history := w.history ++ [pyStrip input] }
        "history" []
      = (Dispatch.handled true (String.intercalate "\n"
          (enumLines 0 (w.history.drop (w.history.length + 1 - 20))
            ++ [toString (min (w.history.length + 1) 20) ++ ": " ++ pyStrip input])),
         { w with history := w.history ++ [pyStrip input] }, []) := by
    unfold run_internal_command
    rw [body_history_eq, if_neg hne]
    dsimp only
    rw [hT]
  refine ⟨enumLines 0 (w.history.drop (w.history.length + 1 - 20)), ?_, ?_, hne⟩
  · rw [run_handler_dispatch_eq fs tok metrics proc w input "history" [] h1 ha htok, hdisp]
  · rw [enumLines_length]
    rw [hlen2]
    omega

/-- C8 witness: submitting `history` on a one-entry history yields the
echoed command plus a two-line listing ending in "2: history". -/
theorem C8_history_sees_itself_witness :
    ∃ pre : List String,
      run_handler fs0 tok0 metrics0 proc0 { sess0 with history := ["ls"] } "history"
        = some (append_output
            (append_output { sess0 with history := ["ls", "history"] } ("$ " ++ "history"))
            (String.intercalate "\n" (pre ++ [toString (min 2 20) ++ ": " ++ "history"])))
      ∧ pre.length + 1 = min 2 20
      ∧ (["ls", "history"] : List String) ≠ [] :=
  C8_history_sees_itself fs0 tok0 metrics0 proc0 { sess0 with history := ["ls"] } "history"
    (by decide) (by decide) (by decide)

/-- A path beginning with the separator is returned unchanged by
`posixpath.join`, whatever the first argument. -/
theorem os_path_join_absolute (a p : String) (hp : strStartsWith p "/" = true) :
    os_path_join a p = p := by
  simp [os_path_join, hp]

/-- C9 confirmed: for every built-in taking path arguments (ls, cd,
mkdir, rm, cp, mv), an absolute path argument is used as-is — joining
the session cwd with an absolute path yields that path unchanged — so
the dispatch outcome (and the trace of filesystem calls) does not
depend on the session cwd, and a successful `cd` to an absolute path
sets the cwd to a value independent of the previous cwd. -/
theorem C9_absolute_path_ignores_cwd (fs : FS) (c₁ c₂ : String) (h : List String)
    (o : String) (r : Bool) (p q : String)
    (hp : strStartsWith p "/" = true) (hq : strStartsWith q "/" = true) :
    os_path_join c₁ p = p
    ∧ ((run_internal_command fs ⟨c₁, h, o, r⟩ "ls" [p]).1
        = (run_internal_command fs ⟨c₂, h, o, r⟩ "ls" [p]).1)
    ∧ ((run_internal_command fs ⟨c₁, h, o, r⟩ "mkdir" [p]).1
        = (run_internal_command fs ⟨c₂, h, o, r⟩ "mkdir" [p]).1
      ∧ (run_internal_command fs ⟨c₁, h, o, r⟩ "mkdir" [p]).2.2
        = (run_internal_command fs ⟨c₂, h, o, r⟩ "mkdir" [p]).2.2)
    ∧ ((run_internal_command fs ⟨c₁, h, o, r⟩ "rm" [p]).1
        = (run_internal_command fs ⟨c₂, h, o, r⟩ "rm" [p]).1
      ∧ (run_internal_command fs ⟨c₁, h, o, r⟩ "rm" [p]).2.2
        = (run_internal_command fs ⟨c₂, h, o, r⟩ "rm" [p]).2.2)
    ∧ ((run_internal_command fs ⟨c₁, h, o, r⟩ "cp" [p, q]).1
        = (run_internal_command fs ⟨c₂, h, o, r⟩ "cp" [p, q]).1
      ∧ (run_internal_command fs ⟨c₁, h, o, r⟩ "cp" [p, q]).2.2
        = (run_internal_command fs ⟨c₂, h, o, r⟩ "cp" [p, q]).2.2)
    ∧ ((run_internal_command fs ⟨c₁, h, o, r⟩ "mv" [p, q]).1
        = (run_internal_command fs ⟨c₂, h, o, r⟩ "mv" [p, q]).1
      ∧ (run_internal_command fs ⟨c₁, h, o, r⟩ "mv" [p, q]).2.2
        = (run_internal_command fs ⟨c₂, h, o, r⟩ "mv" [p, q]).2.2)
    ∧ ((run_internal_command fs ⟨c₁, h, o, r⟩ "cd" [p]).1
        = (run_internal_command fs ⟨c₂, h, o, r⟩ "cd" [p]).1)
    ∧ (fs.pathExists (os_path_abspath fs.getcwd p) = true →
       fs.isDir (os_path_abspath fs.getcwd p) = true →
       (run_internal_command fs ⟨c₁, h, o, r⟩ "cd" [p]).2.1.cwd = os_path_abspath fs.getcwd p
       ∧ (run_internal_command fs ⟨c₂, h, o, r⟩ "cd" [p]).2.1.cwd
           = os_path_abspath fs.getcwd p) := by
  have hp' : p ≠ "~" := by
    intro e
    rw [e] at hp
    exact absurd hp (by decide)
  have hj₁ := os_path_join_absolute c₁ p hp
  have hj₂ := os_path_join_absolute c₂ p hp
  have hjq₁ := os_path_join_absolute c₁ q hq
  have hjq₂ := os_path_join_absolute c₂ q hq
  have hbls₁ : run_internal_command_body fs ⟨c₁, h, o, r⟩ "ls" [p]
      = (match fs.listdir (os_path_join c₁ p) with
         | .ok items => (BodyRes.ret true (String.intercalate "\n" items), ⟨c₁, h, o, r⟩, [])
         | .error e => (BodyRes.exc e, ⟨c₁, h, o, r⟩, [])) := rfl
  have hbls₂ : run_internal_command_body fs ⟨c₂, h, o, r⟩ "ls" [p]
      = (match fs.listdir (os_path_join c₂ p) with
         | .ok items => (BodyRes.ret true (String.intercalate "\n" items), ⟨c₂, h, o, r⟩, [])
         | .error e => (BodyRes.exc e, ⟨c₂, h, o, r⟩, [])) := rfl
  rw [hj₁] at hbls₁
  rw [hj₂] at hbls₂
  have hbmk₁ : run_internal_command_body fs ⟨c₁, h, o, r⟩ "mkdir" [p]
      = (match mkdirLoop fs c₁ [p] with
         | (none, tr) => (BodyRes.ret true "Directory(ies) created.", ⟨c₁, h, o, r⟩, tr)
         | (some e, tr) => (BodyRes.exc e, ⟨c₁, h, o, r⟩, tr)) := rfl
  have hbmk₂ : run_internal_command_body fs ⟨c₂, h, o, r⟩ "mkdir" [p]
      = (match mkdirLoop fs c₂ [p] with
         | (none, tr) => (BodyRes.ret true "Directory(ies) created.", ⟨c₂, h, o, r⟩, tr)
         | (some e, tr) => (BodyRes.exc e, ⟨c₂, h, o, r⟩, tr)) := rfl
  have hmkl : mkdirLoop fs c₁ [p] = mkdirLoop fs c₂ [p] := by
    simp [mkdirLoop, hj₁, hj₂]
  have hbrm₁ : run_internal_command_body fs ⟨c₁, h, o, r⟩ "rm" [p]
      = (match rmLoop fs c₁ [p] with
         | (.ok msgs, tr) => (BodyRes.ret true (String.intercalate "\n" msgs), ⟨c₁, h, o, r⟩, tr)
         | (.error e, tr) => (BodyRes.exc e, ⟨c₁, h, o, r⟩, tr)) := rfl
  have hbrm₂ : run_internal_command_body fs ⟨c₂, h, o, r⟩ "rm" [p]
      = (match rmLoop fs c₂ [p] with
         | (.ok msgs, tr) => (BodyRes.ret true (String.intercalate "\n" msgs), ⟨c₂, h, o, r⟩, tr)
         | (.error e, tr) => (BodyRes.exc e, ⟨c₂, h, o, r⟩, tr)) := rfl
  have hrml : rmLoop fs c₁ [p] = rmLoop fs c₂ [p] := by
    simp [rmLoop, hj₁, hj₂]
  have hbcp₁ : run_internal_command_body fs ⟨c₁, h, o, r⟩ "cp" [p, q]
      = (if fs.isDir (os_path_join c₁ p) then
           match fs.copytree (os_path_join c₁ p) (os_path_join c₁ q) with
           | .ok _ => (BodyRes.ret true "Copy completed.", ⟨c₁, h, o, r⟩,
               [.copytreeE (os_path_join c₁ p) (os_path_join c₁ q)])
           | .error e => (BodyRes.exc e, ⟨c₁, h, o, r⟩,
               [.copytreeE (os_path_join c₁ p) (os_path_join c₁ q)])
         else
           match fs.copy2 (os_path_join c₁ p) (os_path_join c₁ q) with
           | .ok _ => (BodyRes.ret true "Copy completed.", ⟨c₁, h, o, r⟩,
               [.copy2E (os_path_join c₁ p) (os_path_join c₁ q)])
           | .error e => (BodyRes.exc e, ⟨c₁, h, o, r⟩,
               [.copy2E (os_path_join c₁ p) (os_path_join c₁ q)])) := rfl
  have hbcp₂ : run_internal_command_body fs ⟨c₂, h, o, r⟩ "cp" [p, q]
      = (if fs.isDir (os_path_join c₂ p) then
           match fs.copytree (os_path_join c₂ p) (os_path_join c₂ q) with
           | .ok _ => (BodyRes.ret true "Copy completed.", ⟨c₂, h, o, r⟩,
               [.copytreeE (os_path_join c₂ p) (os_path_join c₂ q)])
           | .error e => (BodyRes.exc e, ⟨c₂, h, o, r⟩,
               [.copytreeE (os_path_join c₂ p) (os_path_join c₂ q)])
         else
           match fs.copy2 (os_path_join c₂ p) (os_path_join c₂ q) with
           | .ok _ => (BodyRes.ret true "Copy completed.", ⟨c₂, h, o, r⟩,
               [.copy2E (os_path_join c₂ p) (os_path_join c₂ q)])
           | .error e => (BodyRes.exc e, ⟨c₂, h, o, r⟩,
               [.copy2E (os_path_join c₂ p) (os_path_join c₂ q)])) := rfl
  rw [hj₁, hjq₁] at hbcp₁
  rw [hj₂, hjq₂] at hbcp₂
  have hbmv₁ : run_internal_command_body fs ⟨c₁, h, o, r⟩ "mv" [p, q]
      = (match fs.move (os_path_join c₁ p) (os_path_join c₁ q) with
         | .ok _ => (BodyRes.ret true "Move/Rename completed.", ⟨c₁, h, o, r⟩,
             [.moveE (os_path_join c₁ p) (os_path_join c₁ q)])
         | .error e => (BodyRes.exc e, ⟨c₁, h, o, r⟩,
             [.moveE (os_path_join c₁ p) (os_path_join c₁ q)])) := rfl
  have hbmv₂ : run_internal_command_body fs ⟨c₂, h, o, r⟩ "mv" [p, q]
      = (match fs.move (os_path_join c₂ p) (os_path_join c₂ q) with
         | .ok _ => (BodyRes.ret true "Move/Rename completed.", ⟨c₂, h, o, r⟩,
             [.moveE (os_path_join c₂ p) (os_path_join c₂ q)])
         | .error e => (BodyRes.exc e, ⟨c₂, h, o, r⟩,
             [.moveE (os_path_join c₂ p) (os_path_join c₂ q)])) := rfl
  rw [hj₁, hjq₁] at hbmv₁
  rw [hj₂, hjq₂] at hbmv₂
  have hbcd₁ : run_internal_command_body fs ⟨c₁, h, o, r⟩ "cd" [p]
      = (if ¬ fs.pathExists (os_path_abspath fs.getcwd
              (if p = "~" then fs.home else os_path_join c₁ p))
          ∨ ¬ fs.isDir (os_path_abspath fs.getcwd
              (if p = "~" then fs.home else os_path_join c₁ p)) then
           (BodyRes.ret false ("cd: no such directory: " ++ p), ⟨c₁, h, o, r⟩, [])
         else
           (BodyRes.ret true ("Changed directory to " ++ os_path_abspath fs.getcwd
               (if p = "~" then fs.home else os_path_join c₁ p)),
            ⟨os_path_abspath fs.getcwd (if p = "~" then fs.home else os_path_join c₁ p),
             h, o, r⟩, [])) := rfl
  have hbcd₂ : run_internal_command_body fs ⟨c₂, h, o, r⟩ "cd" [p]
      = (if ¬ fs.pathExists (os_path_abspath fs.getcwd
              (if p = "~" then fs.home else os_path_join c₂ p))
          ∨ ¬ fs.isDir (os_path_abspath fs.getcwd
              (if p = "~" then fs.home else os_path_join c₂ p)) then
           (BodyRes.ret false ("cd: no such directory: " ++ p), ⟨c₂, h, o, r⟩, [])
         else
           (BodyRes.ret true ("Changed directory to " ++ os_path_abspath fs.getcwd
               (if p = "~" then fs.home else os_path_join c₂ p)),
            ⟨os_path_abspath fs.getcwd (if p = "~" then fs.home else os_path_join c₂ p),
             h, o, r⟩, [])) := rfl
  rw [if_neg hp', hj₁] at hbcd₁
  rw [if_neg hp', hj₂] at hbcd₂
  refine ⟨hj₁, ?_, ⟨?_, ?_⟩, ⟨?_, ?_⟩, ⟨?_, ?_⟩, ⟨?_, ?_⟩, ?_, ?_⟩
  · unfold run_internal_command
    rw [hbls₁, hbls₂]
    cases fs.listdir p <;> rfl
  · unfold run_internal_command
    rw [hbmk₁, hbmk₂, hmkl]
    rcases hml : mkdirLoop fs c₂ [p] with ⟨oe, tr⟩
    cases oe <;> rfl
  · unfold run_internal_command
    rw [hbmk₁, hbmk₂, hmkl]
    rcases hml : mkdirLoop fs c₂ [p] with ⟨oe, tr⟩
    cases oe <;> rfl
  · unfold run_internal_command
    rw [hbrm₁, hbrm₂, hrml]
    rcases hml : rmLoop fs c₂ [p] with ⟨oe, tr⟩
    cases oe <;> rfl
  · unfold run_internal_command
    rw [hbrm₁, hbrm₂, hrml]
    rcases hml : rmLoop fs c₂ [p] with ⟨oe, tr⟩
    cases oe <;> rfl
  · unfold run_internal_command
    rw [hbcp₁, hbcp₂]
    cases fs.isDir p
    · rw [if_neg (show ¬ false = true by decide), if_neg (show ¬ false = true by decide)]
      cases fs.copy2 p q <;> rfl
    · rw [if_pos (show true = true from rfl), if_pos (show true = true from rfl)]
      cases fs.copytree p q <;> rfl
  · unfold run_internal_command
    rw [hbcp₁, hbcp₂]
    cases fs.isDir p
    · rw [if_neg (show ¬ false = true by decide), if_neg (show ¬ false = true by decide)]
      cases fs.copy2 p q <;> rfl
    · rw [if_pos (show true = true from rfl), if_pos (show true = true from rfl)]
      cases fs.copytree p q <;> rfl
  · unfold run_internal_command
    rw [hbmv₁, hbmv₂]
    cases fs.move p q <;> rfl
  · unfold run_internal_command
    rw [hbmv₁, hbmv₂]
    cases fs.move p q <;> rfl
  · unfold run_internal_command
    rw [hbcd₁, hbcd₂]
    by_cases hc : ¬ fs.pathExists (os_path_abspath fs.getcwd p)
        ∨ ¬ fs.isDir (os_path_abspath fs.getcwd p)
    · rw [if_pos hc, if_pos hc]
    · rw [if_neg hc, if_neg hc]
  · intro h1 h2
    unfold run_internal_command
    rw [hbcd₁, hbcd₂]
    rw [if_neg (by simp [h1, h2]), if_neg (by simp [h1, h2])]
    exact ⟨rfl, rfl⟩

/-- C9 witness: the theorem at a concrete absolute path, exercising the
join identity and the ls-outcome independence conjuncts. -/
theorem C9_absolute_path_ignores_cwd_witness :
    os_path_join "/somewhere" "/abs" = "/abs"
    ∧ (run_internal_command fs0 ⟨"/somewhere", [], "", false⟩ "ls" ["/abs"]).1
        = (run_internal_command fs0 ⟨"/elsewhere", [], "", false⟩ "ls" ["/abs"]).1 :=
  ⟨(C9_absolute_path_ignores_cwd fs0 "/somewhere" "/elsewhere" [] "" false "/abs" "/abs"
      (by decide) (by decide)).1,
   (C9_absolute_path_ignores_cwd fs0 "/somewhere" "/elsewhere" [] "" false "/abs" "/abs"
      (by decide) (by decide)).2.1⟩

/-- C10 confirmed: after the controller finishes a `clear` submission,
the output log is not empty — the dispatcher first empties it, then the
controller appends the echo line "$ clear" and the confirmation
"Cleared output". -/
theorem C10_clear_leaves_echo (fs : FS) (tok : String → List String) (metrics : Metrics)
    (proc : String → ProcResult) (w : Session) (input : String)
    (h1 : pyStrip input = "clear") (htok : tok "clear" = ["clear"]) :
    ∃ w', run_handler fs tok metrics proc w input = some w'
      ∧ w'.output = "$ clear\nCleared output\n" ∧ w'.output ≠ "" := by
  have h1' : pyStrip input ≠ "" := by rw [h1]; decide
  have ha : pyStrip input ∉ aliasCmds := by rw [h1]; decide
  have htok' : tok (pyStrip input) = ["clear"] := by rw [h1]; exact htok
  have hdisp : run_internal_command fs { w with history := w.history ++ [pyStrip input] }
        "clear" []
      = (Dispatch.handled true "Cleared output",
         { { w with history := w.history ++ [pyStrip input] } with output := "" }, []) := by
    unfold run_internal_command
    rw [body_clear_eq]
  rw [run_handler_dispatch_eq fs tok metrics proc w input "clear" [] h1' ha htok', hdisp]
  refine ⟨_, rfl, ?_, ?_⟩
  · simp only [append_output, h1]
    rfl
  · simp only [append_output, h1]
    decide

/-- C10 witness: a concrete `clear` submission on a session with prior
output leaves exactly the echo and the confirmation in the log. -/
theorem C10_clear_leaves_echo_witness :
    ∃ w', run_handler fs0 tok0 metrics0 proc0 { sess0 with output := "old\n" } " clear "
        = some w'
      ∧ w'.output = "$ clear\nCleared output\n" ∧ w'.output ≠ "" :=
  C10_clear_leaves_echo fs0 tok0 metrics0 proc0 { sess0 with output := "old\n" } " clear "
    (by decide) (by decide)

end Terminal
